import Mathlib

/-!
Verification development for the schema-to-AsyncAPI compiler of
`hono-zod-asyncapi`: the Zod-to-schema translator (`src/zod-to-schema.ts`),
the channel registry (`src/registry.ts`), the document generator
(`generator.ts`) and the simplified YAML emitter (`index.ts`).

The TypeScript source is shallowly embedded: JS runtime values are the
`JSValue` family, Zod schema nodes are the `ZodType` family (one constructor
per `typeName` the translator dispatches on), JS objects / `Map`s used as
keyed collections are ordered association lists with JS assignment semantics
(`mapSet`: overwrite in place on an existing key, append otherwise), and the
mutable registry is passed as explicit state.
-/

/-! ### JS runtime values

`JSValue` models the JavaScript values the library manipulates: primitives,
`undefined`, `null`, arrays and plain objects.  `JSList` and `JSFields` are
specialized list types so that all functions below are structurally
recursive (and hence reduce definitionally). -/

mutual

inductive JSValue where
  | undef : JSValue
  | null : JSValue
  | bool : Bool → JSValue
  | num : Int → JSValue
  | str : String → JSValue
  | arr : JSList → JSValue
  | obj : JSFields → JSValue

inductive JSList where
  | nil : JSList
  | cons : JSValue → JSList → JSList

inductive JSFields where
  | nil : JSFields
  | cons : String → JSValue → JSFields → JSFields

end

/-- JavaScript `typeof` operator on a `JSValue` (used by the `ZodLiteral`
translation case, `type: typeof def.value`). -/
def jsTypeof : JSValue → String
  | .undef => "undefined"
  | .null => "object"
  | .bool _ => "boolean"
  | .num _ => "number"
  | .str _ => "string"
  | .arr _ => "object"
  | .obj _ => "object"

/-- JavaScript template-literal coercion of a non-object value, as used in
the YAML emitter's scalar branches.  Integers print in decimal, matching JS
number printing for integral values. -/
def jsCoerce : JSValue → String
  | .undef => "undefined"
  | .null => "null"
  | .bool true => "true"
  | .bool false => "false"
  | .num n => n.repr
  | .str s => s
  | .arr _ => ""
  | .obj _ => ""

/-- JS test `typeof v === 'object' && v !== null`, the branch condition in
the YAML emitter. -/
def isObjectNonNull : JSValue → Bool
  | .arr _ => true
  | .obj _ => true
  | _ => false

/-- The `'  '.repeat(indent)` indentation string. -/
def yamlSpaces : Nat → String
  | 0 => ""
  | n + 1 => "  " ++ yamlSpaces n

/-! ### The simplified YAML emitter (`convertToYAML` in `index.ts`)

The source walks a value: arrays become dashed items (object items on their
own line, scalars coerced after the dash), objects become `key:` lines
(fields with `undefined` values skipped, string values quoted, object values
as indented blocks), everything else contributes the empty string. -/

mutual

def convertToYAML : JSValue → Nat → String
  | .arr items, indent => convertToYAMLList items indent
  | .obj fields, indent => convertToYAMLFields fields indent
  | _, _ => ""

def convertToYAMLList : JSList → Nat → String
  | .nil, _ => ""
  | .cons item rest, indent =>
    (if isObjectNonNull item then
      yamlSpaces indent ++ "-\n" ++ convertToYAML item (indent + 1)
    else
      yamlSpaces indent ++ "- " ++ jsCoerce item ++ "\n")
    ++ convertToYAMLList rest indent

def convertToYAMLFields : JSFields → Nat → String
  | .nil, _ => ""
  | .cons key value rest, indent =>
    (match value with
     | .undef => ""
     | .arr items => yamlSpaces indent ++ key ++ ":\n" ++ convertToYAMLList items (indent + 1)
     | .obj fields => yamlSpaces indent ++ key ++ ":\n" ++ convertToYAMLFields fields (indent + 1)
     | .str s => yamlSpaces indent ++ key ++ ": \"" ++ s ++ "\"\n"
     | v => yamlSpaces indent ++ key ++ ": " ++ jsCoerce v ++ "\n")
    ++ convertToYAMLFields rest indent

end

/-! ### AsyncAPI schema objects

`SchemaObject` models the JSON-Schema-shaped output of the translator
(`SchemaObject` in `src/types.ts`, restricted to the keys the translator
ever writes).  Each `Option` field models presence/absence of the key on
the produced JS object. -/

inductive SchemaObject where
  | mk :
    (type : Option String) →
    (properties : Option (List (String × SchemaObject))) →
    (required : Option (List String)) →
    (items : Option SchemaObject) →
    (enumVals : Option (List JSValue)) →
    (oneOf : Option (List SchemaObject)) →
    (additionalProperties : Option SchemaObject) →
    (nullable : Option Bool) →
    (schemaDefault : Option JSValue) →
    (description : Option String) →
    SchemaObject

namespace SchemaObject

def type : SchemaObject → Option String
  | .mk t _ _ _ _ _ _ _ _ _ => t

def properties : SchemaObject → Option (List (String × SchemaObject))
  | .mk _ p _ _ _ _ _ _ _ _ => p

def required : SchemaObject → Option (List String)
  | .mk _ _ r _ _ _ _ _ _ _ => r

def items : SchemaObject → Option SchemaObject
  | .mk _ _ _ i _ _ _ _ _ _ => i

def enumVals : SchemaObject → Option (List JSValue)
  | .mk _ _ _ _ e _ _ _ _ _ => e

def oneOf : SchemaObject → Option (List SchemaObject)
  | .mk _ _ _ _ _ o _ _ _ _ => o

def additionalProperties : SchemaObject → Option SchemaObject
  | .mk _ _ _ _ _ _ a _ _ _ => a

def nullable : SchemaObject → Option Bool
  | .mk _ _ _ _ _ _ _ n _ _ => n

def schemaDefault : SchemaObject → Option JSValue
  | .mk _ _ _ _ _ _ _ _ d _ => d

def description : SchemaObject → Option String
  | .mk _ _ _ _ _ _ _ _ _ d => d

/-- Schema with only a `type` key and an optional `description`, the shape
of the primitive translation cases. -/
def ofType (t : String) (d : Option String) : SchemaObject :=
  .mk (some t) none none none none none none none none d

end SchemaObject

/-! ### Zod schema nodes

`ZodType` has one constructor per `typeName` the translator dispatches on
(`src/zod-to-schema.ts`), plus `zother` for every other node kind (the
`default:` arm).  Each constructor carries the pieces of `_def` the
translator reads: the optional `description` metadata, inner types,
enum/literal/default values.  `ZodShape` is the ordered field list of a
`ZodObject` shape, `ZodOptions` the option list of a (discriminated) union.

`zother` carries only whether the node accepts `undefined` (the result of
Zod's `isOptional()` probe for that node), since the translator reads
nothing else from unknown nodes. -/

mutual

inductive ZodType where
  | zstring : Option String → ZodType
  | znumber : Option String → ZodType
  | zboolean : Option String → ZodType
  | zarray : ZodType → Option String → ZodType
  | zobject : ZodShape → Option String → ZodType
  | zenum : List String → Option String → ZodType
  | zliteral : JSValue → Option String → ZodType
  | zunion : ZodOptions → Option String → ZodType
  | zoptional : ZodType → Option String → ZodType
  | znullable : ZodType → Option String → ZodType
  | zdefault : ZodType → JSValue → Option String → ZodType
  | zrecord : ZodType → Option String → ZodType
  | zother : Bool → ZodType

inductive ZodShape where
  | nil : ZodShape
  | cons : String → ZodType → ZodShape → ZodShape

inductive ZodOptions where
  | nil : ZodOptions
  | cons : ZodType → ZodOptions → ZodOptions

end

namespace ZodShape

/-- The shape as a plain association list (declaration order). -/
def toList : ZodShape → List (String × ZodType)
  | .nil => []
  | .cons k v rest => (k, v) :: rest.toList

end ZodShape

mutual

/-- Zod's `isOptional()` probe (`safeParse(undefined).success`): true for
`ZodOptional` and `ZodDefault` wrappers, propagated through `ZodNullable`,
true for a union iff some option accepts `undefined`, true for
`z.literal(undefined)`, and given by the stored flag for unknown nodes. -/
def ZodType.isOptional : ZodType → Bool
  | .zstring _ => false
  | .znumber _ => false
  | .zboolean _ => false
  | .zarray _ _ => false
  | .zobject _ _ => false
  | .zenum _ _ => false
  | .zliteral v _ => match v with | .undef => true | _ => false
  | .zunion opts _ => ZodOptions.anyOptional opts
  | .zoptional _ _ => true
  | .znullable t _ => t.isOptional
  | .zdefault _ _ _ => true
  | .zrecord _ _ => false
  | .zother acceptsUndefined => acceptsUndefined

def ZodOptions.anyOptional : ZodOptions → Bool
  | .nil => false
  | .cons t rest => t.isOptional || ZodOptions.anyOptional rest

end

namespace ZodShape

/-- The `required` list built by the `ZodObject` translation loop: the keys
whose field schema is not optional, in declaration order. -/
def requiredKeys : ZodShape → List String
  | .nil => []
  | .cons k v rest => if v.isOptional then rest.requiredKeys else k :: rest.requiredKeys

end ZodShape

/-! ### The translator (`generateSchemaFromZod`) -/

mutual

/-- Shallow embedding of `generateSchemaFromZod` from `src/zod-to-schema.ts`:
dispatch on the node's `typeName`, with the `default:` arm returning the
bare `{type: 'object'}` fallback.  `extractMetadata` is the `description`
passthrough in the non-wrapper cases. -/
def generateSchemaFromZod : ZodType → SchemaObject
  | .zstring d => .ofType "string" d
  | .znumber d => .ofType "number" d
  | .zboolean d => .ofType "boolean" d
  | .zarray elemType d =>
    .mk (some "array") none none (some (generateSchemaFromZod elemType)) none none none none none d
  | .zobject shape d =>
    let req := shape.requiredKeys
    .mk (some "object") (some (generateSchemaProps shape))
      (if req.length > 0 then some req else none)
      none none none none none none d
  | .zenum values d =>
    .mk (some "string") none none none (some (values.map JSValue.str)) none none none none d
  | .zliteral v d =>
    .mk (some (jsTypeof v)) none none none (some [v]) none none none none d
  | .zunion opts d =>
    .mk none none none none none (some (generateSchemaOptions opts)) none none none d
  | .zoptional innerType _ => generateSchemaFromZod innerType
  | .znullable innerType _ =>
    match generateSchemaFromZod innerType with
    | .mk t p r i e o a _ df ds => .mk t p r i e o a (some true) df ds
  | .zdefault innerType defaultValue _ =>
    match generateSchemaFromZod innerType with
    | .mk t p r i e o a n _ ds => .mk t p r i e o a n (some defaultValue) ds
  | .zrecord valueType d =>
    .mk (some "object") none none none none none (some (generateSchemaFromZod valueType)) none none d
  | .zother _ => .ofType "object" none

/-- The `properties` record of the `ZodObject` case: each field translated,
declaration order preserved. -/
def generateSchemaProps : ZodShape → List (String × SchemaObject)
  | .nil => []
  | .cons k v rest => (k, generateSchemaFromZod v) :: generateSchemaProps rest

/-- The `oneOf` list of the `ZodUnion` / `ZodDiscriminatedUnion` case. -/
def generateSchemaOptions : ZodOptions → List SchemaObject
  | .nil => []
  | .cons t rest => generateSchemaFromZod t :: generateSchemaOptions rest

end

/-- A Zod schema value as received by `zodToAsyncAPISchema`: the node plus
the optional `_def.openapi` extension payload, which the function returns
verbatim when present (only at the top level; the recursive translator never
consults it). -/
structure ZodSchema where
  openapiMeta : Option SchemaObject
  node : ZodType

/-- Shallow embedding of `zodToAsyncAPISchema`: return the `_def.openapi`
payload when present, otherwise fall back to `generateSchemaFromZod`. -/
def zodToAsyncAPISchema (schema : ZodSchema) : SchemaObject :=
  match schema.openapiMeta with
  | some generator => generator
  | none => generateSchemaFromZod schema.node

/-! ### Keyed collections

JS `Map.set` / object assignment semantics on an ordered association list:
an existing key keeps its position and gets the new value, a new key is
appended. -/

def mapSet {A : Type} (m : List (String × A)) (k : String) (v : A) : List (String × A) :=
  if m.any (fun p => p.1 == k) then
    m.map (fun p => if p.1 == k then (k, v) else p)
  else
    m ++ [(k, v)]

/-- JS `Map.get` / property read: the value at the first occurrence of the
key, `none` when absent. -/
def mapGet {A : Type} (m : List (String × A)) (k : String) : Option A :=
  (m.find? (fun p => p.1 == k)).map Prod.snd

/-! ### The channel registry (`src/registry.ts`) -/

/-- `MessageConfig` from `src/types.ts`: the per-direction message
descriptor. -/
structure MessageConfig where
  payload : Option ZodSchema
  headers : Option ZodSchema
  contentType : Option String
  description : Option String
  summary : Option String
  name : Option String

/-- `ChannelConfig` from `src/types.ts`. -/
structure ChannelConfig where
  path : String
  description : Option String
  send : Option MessageConfig
  receive : Option MessageConfig
  parameters : Option (List (String × ZodSchema))
  servers : Option (List String)
  tags : Option (List String)

/-- `OperationMetadata` from `src/types.ts`. -/
structure OperationMetadata where
  operationId : String
  summary : Option String
  description : Option String
  tags : Option (List String)

/-- The `operations` record of a registered channel. -/
structure ChannelOperations where
  send : Option OperationMetadata
  receive : Option OperationMetadata

/-- `RegisteredChannel` from `src/types.ts`; the handler is opaque to the
compiler and modelled as a unit value. -/
structure RegisteredChannel where
  config : ChannelConfig
  handler : Option Unit
  operations : ChannelOperations

/-- The `AsyncAPIRegistry` instance state: the `channels` map in insertion
order and the `operationCounter` field. -/
structure AsyncAPIRegistry where
  channels : List (String × RegisteredChannel)
  operationCounter : Nat

namespace AsyncAPIRegistry

/-- A freshly constructed registry. -/
def empty : AsyncAPIRegistry := ⟨[], 0⟩

/-- `registerChannel(id, config, handler)`: build the operation metadata for
each direction present in the config, drawing `send` then `receive` ids from
the post-incremented `operationCounter`, and store the entry under `id`
(overwriting any prior entry). -/
def registerChannel (r : AsyncAPIRegistry) (id : String) (config : ChannelConfig)
    (handler : Option Unit) : AsyncAPIRegistry :=
  let sendStep : Option OperationMetadata × Nat :=
    match config.send with
    | some m =>
      (some ⟨"send_" ++ id ++ "_" ++ Nat.repr r.operationCounter,
        m.summary, m.description, config.tags⟩, r.operationCounter + 1)
    | none => (none, r.operationCounter)
  let receiveStep : Option OperationMetadata × Nat :=
    match config.receive with
    | some m =>
      (some ⟨"receive_" ++ id ++ "_" ++ Nat.repr sendStep.2,
        m.summary, m.description, config.tags⟩, sendStep.2 + 1)
    | none => (none, sendStep.2)
  ⟨mapSet r.channels id ⟨config, handler, ⟨sendStep.1, receiveStep.1⟩⟩, receiveStep.2⟩

/-- `getChannel(id)`: pure lookup. -/
def getChannel (r : AsyncAPIRegistry) (id : String) : Option RegisteredChannel :=
  mapGet r.channels id

/-- `getAllChannels()`: the live channels map. -/
def getAllChannels (r : AsyncAPIRegistry) : List (String × RegisteredChannel) :=
  r.channels

/-- `clear()`: drop all entries and reset the counter. -/
def clear (_ : AsyncAPIRegistry) : AsyncAPIRegistry := ⟨[], 0⟩

/-- `merge(other)`: copy every entry of `other` into `this` in iteration
order, overwriting on key collision; the receiving counter is untouched and
`other` (a value here) is not modified. -/
def merge (r other : AsyncAPIRegistry) : AsyncAPIRegistry :=
  ⟨other.getAllChannels.foldl (fun acc p => mapSet acc p.1 p.2) r.channels,
   r.operationCounter⟩

end AsyncAPIRegistry

/-- Registry states reachable from a fresh registry by the mutating
operations without an intervening `clear` (`getChannel` / `getAllChannels`
do not change state; `merge` takes another reachable registry). -/
inductive Reachable : AsyncAPIRegistry → Prop where
  | empty : Reachable AsyncAPIRegistry.empty
  | register (r : AsyncAPIRegistry) (id : String) (config : ChannelConfig)
      (handler : Option Unit) : Reachable r →
      Reachable (r.registerChannel id config handler)
  | merge (r other : AsyncAPIRegistry) : Reachable r → Reachable other →
      Reachable (r.merge other)

/-- The operation ids stored in one registry entry (`send` first). -/
def entryOperationIds (ch : RegisteredChannel) : List String :=
  (match ch.operations.send with | some m => [m.operationId] | none => []) ++
  (match ch.operations.receive with | some m => [m.operationId] | none => [])

/-- All operation ids stored across all entries of a registry. -/
def AsyncAPIRegistry.allOperationIds (r : AsyncAPIRegistry) : List String :=
  r.channels.flatMap (fun p => entryOperationIds p.2)

/-! ### The document generator (`generator.ts`) -/

/-- `InfoObject` (carried through the generator unchanged). -/
structure InfoObject where
  title : String
  version : String
  description : Option String

/-- `ServerObject`. -/
structure ServerObject where
  host : String
  protocol : String
  description : Option String

/-- A `$ref` string reference. -/
structure Reference where
  ref : String

/-- `TagObject` as built by the generator (`{name}`). -/
structure TagObject where
  name : String

/-- A message object as built by `createMessageObject`: fixed content type,
optional metadata, and `$ref` payload/headers set only when present. -/
structure MessageObject where
  contentType : String
  name : Option String
  summary : Option String
  description : Option String
  payload : Option Reference
  headers : Option Reference

/-- The `components` groups the generator reads and writes.  Option marks
key presence on the JS object (the generator always materializes both). -/
structure ComponentsObject where
  schemas : Option (List (String × SchemaObject))
  messages : Option (List (String × MessageObject))

/-- A channel object as assembled by the generator. -/
structure ChannelObject where
  address : String
  description : Option String
  messages : List (String × Reference)
  servers : Option (List Reference)
  tags : Option (List TagObject)

/-- An operation object as assembled by the generator. -/
structure OperationObject where
  action : String
  channel : Reference
  summary : Option String
  description : Option String
  messages : List Reference
  tags : Option (List TagObject)

/-- The generated AsyncAPI document. -/
structure AsyncAPIDocument where
  asyncapi : String
  info : InfoObject
  servers : Option (List (String × ServerObject))
  channels : List (String × ChannelObject)
  operations : List (String × OperationObject)
  components : ComponentsObject

/-- `GeneratorOptions`. -/
structure GeneratorOptions where
  info : InfoObject
  servers : Option (List (String × ServerObject))
  components : Option ComponentsObject

/-- The `...(tags && tags.length > 0 && {tags: tags.map(name => ({name}))})`
spread: the `tags` key is present only for a present, non-empty list. -/
def tagsField (tags : Option (List String)) : Option (List TagObject) :=
  match tags with
  | some ts => if ts.length > 0 then some (ts.map TagObject.mk) else none
  | none => none

/-- Shallow embedding of `createMessageObject`: build the message object and
record the translated payload under `schema_<counter>` and the translated
headers under `headers_<counter>` in the schemas component (state passed
explicitly in place of the mutated `components`).  The `||` default on
`contentType` treats the empty string as falsy, as in JS. -/
def createMessageObject (messageConfig : MessageConfig)
    (schemas : List (String × SchemaObject)) (counter : Nat) :
    MessageObject × List (String × SchemaObject) :=
  let contentType :=
    match messageConfig.contentType with
    | some s => if s == "" then "application/json" else s
    | none => "application/json"
  let payloadStep : Option Reference × List (String × SchemaObject) :=
    match messageConfig.payload with
    | some p =>
      (some ⟨"#/components/schemas/" ++ ("schema_" ++ Nat.repr counter)⟩,
       mapSet schemas ("schema_" ++ Nat.repr counter) (zodToAsyncAPISchema p))
    | none => (none, schemas)
  let headersStep : Option Reference × List (String × SchemaObject) :=
    match messageConfig.headers with
    | some h =>
      (some ⟨"#/components/schemas/" ++ ("headers_" ++ Nat.repr counter)⟩,
       mapSet payloadStep.2 ("headers_" ++ Nat.repr counter) (zodToAsyncAPISchema h))
    | none => (none, payloadStep.2)
  (⟨contentType, messageConfig.name, messageConfig.summary, messageConfig.description,
    payloadStep.1, headersStep.1⟩, headersStep.2)

/-- The generator's per-call accumulator: the four result maps under
construction plus the two call-local counters. -/
structure GenState where
  channels : List (String × ChannelObject)
  operations : List (String × OperationObject)
  schemas : List (String × SchemaObject)
  messages : List (String × MessageObject)
  schemaCounter : Nat
  messageCounter : Nat

/-- One direction of the generator loop body: build the message object, file
it under `<channelId>_<action>_message`, add the operation object under the
registry-assigned operation id, and bump both call-local counters. -/
def processDirection (action : String) (channelId : String) (mc : MessageConfig)
    (op : OperationMetadata) (st : GenState) : GenState × (String × MessageObject) :=
  let messageKey := channelId ++ "_" ++ action ++ "_message"
  let built := createMessageObject mc st.schemas st.schemaCounter
  let operation : OperationObject :=
    ⟨action, ⟨"#/channels/" ++ channelId⟩, op.summary, op.description,
     [⟨"#/components/messages/" ++ messageKey⟩], tagsField op.tags⟩
  (⟨st.channels,
    mapSet st.operations op.operationId operation,
    built.2,
    mapSet st.messages messageKey built.1,
    st.schemaCounter + 1,
    st.messageCounter + 1⟩,
   (messageKey, built.1))

/-- The generator loop body for one registered channel: the `send` direction
(when both the config message and the registered operation are present),
then `receive`, then the channel object itself. -/
def processChannel (st : GenState) (channelId : String)
    (registered : RegisteredChannel) : GenState :=
  let config := registered.config
  let sendStep : GenState × List (String × MessageObject) :=
    match config.send, registered.operations.send with
    | some mc, some op =>
      let r := processDirection "send" channelId mc op st
      (r.1, [r.2])
    | _, _ => (st, [])
  let receiveStep : GenState × List (String × MessageObject) :=
    match config.receive, registered.operations.receive with
    | some mc, some op =>
      let r := processDirection "receive" channelId mc op sendStep.1
      (r.1, sendStep.2 ++ [r.2])
    | _, _ => (sendStep.1, sendStep.2)
  let channelObj : ChannelObject :=
    ⟨config.path, config.description,
     receiveStep.2.map (fun p => (p.1, ⟨"#/components/messages/" ++ p.1⟩)),
     config.servers.map (fun ss => ss.map (fun s => ⟨"#/servers/" ++ s⟩)),
     tagsField config.tags⟩
  { receiveStep.1 with channels := mapSet receiveStep.1.channels channelId channelObj }

/-- Shallow embedding of `generateAsyncAPIDocument`.  The registry is
threaded through and returned so that the (absent) mutation of the registry
by a generate call is part of the statement surface: the function only ever
reads `registry.getAllChannels()`. -/
def generateAsyncAPIDocument (registry : AsyncAPIRegistry)
    (options : GeneratorOptions) : AsyncAPIDocument × AsyncAPIRegistry :=
  let initSchemas : List (String × SchemaObject) :=
    match options.components with
    | some c => c.schemas.getD []
    | none => []
  let initMessages : List (String × MessageObject) :=
    match options.components with
    | some c => c.messages.getD []
    | none => []
  let final := registry.getAllChannels.foldl
    (fun st p => processChannel st p.1 p.2) ⟨[], [], initSchemas, initMessages, 0, 0⟩
  (⟨"3.0.0", options.info, options.servers, final.channels, final.operations,
    ⟨some final.schemas, some final.messages⟩⟩, registry)

/-- The message configs one registered channel contributes to generation,
one per direction that has both the config message and the registered
operation (`send` before `receive`). -/
def channelDirectionMessages (ch : RegisteredChannel) : List MessageConfig :=
  (match ch.config.send, ch.operations.send with
   | some mc, some _ => [mc]
   | _, _ => []) ++
  (match ch.config.receive, ch.operations.receive with
   | some mc, some _ => [mc]
   | _, _ => [])

/-- The flattened list of message configs the generator translates, in
registry iteration order. -/
def directionMessages (chans : List (String × RegisteredChannel)) : List MessageConfig :=
  chans.flatMap (fun p => channelDirectionMessages p.2)

/-- The generator loop over the channel view, as a named fold. -/
def genLoop (chans : List (String × RegisteredChannel)) (st : GenState) : GenState :=
  chans.foldl (fun st p => processChannel st p.1 p.2) st

/-- Operation ids of one registry entry embed the entry's direction and
channel id followed by a decimal counter. -/
def opIdOk (dir k : String) : Option OperationMetadata → Prop
  | none => True
  | some m => ∃ n, m.operationId = dir ++ k ++ "_" ++ Nat.repr n

/-- Well-formedness of one registry entry under its key. -/
def entryOk (k : String) (ch : RegisteredChannel) : Prop :=
  opIdOk "send_" k ch.operations.send ∧ opIdOk "receive_" k ch.operations.receive

/-- Registry invariant maintained by every mutating operation: channel keys
are pairwise distinct and every stored operation id embeds its own entry's
key. -/
def RegistryWF (r : AsyncAPIRegistry) : Prop :=
  (r.channels.map Prod.fst).Nodup ∧ ∀ p ∈ r.channels, entryOk p.1 p.2

/-- Object fields whose value is `undefined`, removed. -/
def filterUndefFields : JSFields → JSFields
  | .nil => .nil
  | .cons _ .undef rest => filterUndefFields rest
  | .cons k v rest => .cons k v (filterUndefFields rest)

/-! ### Concrete demonstration data used by witnesses and counterexamples -/

/-- A message descriptor with every optional piece absent. -/
def demoMessage : MessageConfig := ⟨none, none, none, none, none, none⟩

/-- A channel configuration with only a `send` message. -/
def demoSendConfig : ChannelConfig :=
  ⟨"/chat", none, some demoMessage, none, none, none, none⟩

/-- A channel configuration with only a `receive` message. -/
def demoReceiveConfig : ChannelConfig :=
  ⟨"/news", none, none, some demoMessage, none, none, none⟩

/-- A registry with two one-direction channels registered in sequence. -/
def demoRegistry : AsyncAPIRegistry :=
  (AsyncAPIRegistry.empty.registerChannel "chat" demoSendConfig none).registerChannel
    "news" demoReceiveConfig none

/-- Object shape `{a: string, b?: string}` used to instantiate the object
translation claim. -/
def demoShape : ZodShape :=
  .cons "a" (.zstring none) (.cons "b" (.zoptional (.zstring none) none) .nil)

/-- A `send` message carrying both a payload schema and a headers schema. -/
def demoPayloadHeadersMessage : MessageConfig :=
  ⟨some ⟨none, .zstring none⟩, some ⟨none, .znumber none⟩, none, none, none, none⟩

/-- Channel configuration whose `send` message has payload and headers. -/
def demoPayloadHeadersConfig : ChannelConfig :=
  ⟨"/chat", none, some demoPayloadHeadersMessage, none, none, none, none⟩

/-- Registry holding the payload-and-headers channel. -/
def demoPayloadHeadersRegistry : AsyncAPIRegistry :=
  AsyncAPIRegistry.empty.registerChannel "chat" demoPayloadHeadersConfig none

/-- A registry holding only the send-only channel. -/
def demoRegistryA : AsyncAPIRegistry :=
  AsyncAPIRegistry.empty.registerChannel "chat" demoSendConfig none

/-- A registry holding only the receive-only channel. -/
def demoRegistryB : AsyncAPIRegistry :=
  AsyncAPIRegistry.empty.registerChannel "news" demoReceiveConfig none

/-- Minimal generator options. -/
def demoOptions : GeneratorOptions := ⟨⟨"T", "1.0.0", none⟩, none, none⟩

/-! ### Infrastructure: decimal representations and key strings

The registry and the generator bake counters into identifier strings
(`send_<id>_<n>`, `schema_<n>`), so distinctness of identifiers reduces to
facts about `Nat.repr`: its characters are decimal digits (hence never an
underscore) and it is injective. -/

theorem digitChar_ne_underscore (d : Nat) (hd : d < 10) : Nat.digitChar d ≠ '_' := by
  interval_cases d <;> decide

theorem digitChar_inj_lt (a b : Nat) (ha : a < 10) (hb : b < 10)
    (h : Nat.digitChar a = Nat.digitChar b) : a = b := by
  interval_cases a <;> interval_cases b <;> first | rfl | exact absurd h (by decide)

theorem toDigitsCore_eq_digits : ∀ (fuel n : Nat) (acc : List Char), n < fuel →
    Nat.toDigitsCore 10 fuel n acc =
      (if n = 0 then ['0'] else ((Nat.digits 10 n).map Nat.digitChar).reverse) ++ acc := by
  intro fuel
  induction fuel with
  | zero => intro n acc h; omega
  | succ f ih =>
    intro n acc h
    rw [Nat.toDigitsCore]
    by_cases hn : n = 0
    · subst hn
      simp
      rfl
    · by_cases hdiv : n / 10 = 0
      · rw [if_pos hdiv, if_neg hn]
        have hlt : n < 10 := by omega
        rw [Nat.digits_def' (by norm_num : (1:Nat) < 10) (by omega : 0 < n), hdiv]
        simp [Nat.mod_eq_of_lt hlt]
      · rw [if_neg hdiv]
        have hfuel : n / 10 < f := by
          have h1 : n / 10 < n := Nat.div_lt_self (by omega) (by omega)
          omega
        rw [ih (n / 10) (Nat.digitChar (n % 10) :: acc) hfuel, if_neg hdiv, if_neg hn]
        rw [Nat.digits_def' (by norm_num : (1:Nat) < 10) (by omega : 0 < n)]
        simp

theorem repr_data_eq (n : Nat) :
    (Nat.repr n).data =
      if n = 0 then ['0'] else ((Nat.digits 10 n).map Nat.digitChar).reverse := by
  show (Nat.toDigits 10 n).asString.data = _
  rw [Nat.toDigits, toDigitsCore_eq_digits (n + 1) n [] (by omega)]
  simp [List.asString]

theorem underscore_not_mem_repr (n : Nat) : '_' ∉ (Nat.repr n).data := by
  rw [repr_data_eq]
  by_cases hn : n = 0
  · simp [hn]
  · rw [if_neg hn]
    intro hmem
    rw [List.mem_reverse, List.mem_map] at hmem
    obtain ⟨d, hd, heq⟩ := hmem
    exact digitChar_ne_underscore d (Nat.digits_lt_base (by norm_num) hd) heq

theorem map_digitChar_inj : ∀ (l1 l2 : List Nat), (∀ x ∈ l1, x < 10) → (∀ x ∈ l2, x < 10) →
    l1.map Nat.digitChar = l2.map Nat.digitChar → l1 = l2 := by
  intro l1
  induction l1 with
  | nil => intro l2 _ _ h; cases l2 with
    | nil => rfl
    | cons b t => simp at h
  | cons a t1 ih =>
    intro l2 h1 h2 h
    cases l2 with
    | nil => simp at h
    | cons b t2 =>
      simp only [List.map_cons, List.cons.injEq] at h
      have ha : a = b := digitChar_inj_lt a b (h1 a (by simp)) (h2 b (by simp)) h.1
      have ht : t1 = t2 := ih t2 (fun x hx => h1 x (by simp [hx])) (fun x hx => h2 x (by simp [hx])) h.2
      rw [ha, ht]

theorem natRepr_injective (m n : Nat) (h : Nat.repr m = Nat.repr n) : m = n := by
  have hd : (Nat.repr m).data = (Nat.repr n).data := by rw [h]
  rw [repr_data_eq, repr_data_eq] at hd
  by_cases hm : m = 0 <;> by_cases hn : n = 0
  · omega
  · rw [if_pos hm, if_neg hn] at hd
    have : (Nat.digits 10 n).map Nat.digitChar = ['0'] := by
      have := congrArg List.reverse hd
      simpa using this.symm
    cases hdig : Nat.digits 10 n with
    | nil => rw [hdig] at this; simp at this
    | cons d t =>
      rw [hdig] at this
      cases t with
      | nil =>
        simp only [List.map_cons, List.map_nil, List.cons.injEq] at this
        have hd10 : d < 10 := Nat.digits_lt_base (by norm_num) (by rw [hdig]; simp)
        have : d = 0 := digitChar_inj_lt d 0 hd10 (by norm_num) (by rw [this.1]; rfl)
        have hof := Nat.ofDigits_digits 10 n
        rw [hdig, this] at hof
        simp [Nat.ofDigits] at hof
        omega
      | cons d2 t2 => simp at this
  · rw [if_neg hm, if_pos hn] at hd
    have : (Nat.digits 10 m).map Nat.digitChar = ['0'] := by
      have := congrArg List.reverse hd
      simpa using this
    cases hdig : Nat.digits 10 m with
    | nil => rw [hdig] at this; simp at this
    | cons d t =>
      rw [hdig] at this
      cases t with
      | nil =>
        simp only [List.map_cons, List.map_nil, List.cons.injEq] at this
        have hd10 : d < 10 := Nat.digits_lt_base (by norm_num) (by rw [hdig]; simp)
        have : d = 0 := digitChar_inj_lt d 0 hd10 (by norm_num) (by rw [this.1]; rfl)
        have hof := Nat.ofDigits_digits 10 m
        rw [hdig, this] at hof
        simp [Nat.ofDigits] at hof
        omega
      | cons d2 t2 => simp at this
  · rw [if_neg hm, if_neg hn] at hd
    have hrev := congrArg List.reverse hd
    simp only [List.reverse_reverse] at hrev
    have hmap : (Nat.digits 10 m).map Nat.digitChar = (Nat.digits 10 n).map Nat.digitChar := hrev
    have hdig : Nat.digits 10 m = Nat.digits 10 n :=
      map_digitChar_inj _ _ (fun x hx => Nat.digits_lt_base (by norm_num) hx)
        (fun x hx => Nat.digits_lt_base (by norm_num) hx) hmap
    have := congrArg (Nat.ofDigits 10) hdig
    rwa [Nat.ofDigits_digits, Nat.ofDigits_digits] at this

theorem append_cons_inj_of_not_mem :
    ∀ (a1 a2 b1 b2 : List Char), '_' ∉ a1 → '_' ∉ a2 →
      a1 ++ '_' :: b1 = a2 ++ '_' :: b2 → a1 = a2 ∧ b1 = b2 := by
  intro a1
  induction a1 with
  | nil =>
    intro a2 b1 b2 _ h2 h
    cases a2 with
    | nil => simpa using h
    | cons c t =>
      simp only [List.nil_append, List.cons_append, List.cons.injEq] at h
      exact absurd (h.1 ▸ List.mem_cons_self c t) h2
  | cons c t ih =>
    intro a2 b1 b2 h1 h2 h
    cases a2 with
    | nil =>
      simp only [List.nil_append, List.cons_append, List.cons.injEq] at h
      exact absurd (h.1 ▸ List.mem_cons_self c t) h1
    | cons c2 t2 =>
      simp only [List.cons_append, List.cons.injEq] at h
      have := ih t2 b1 b2 (fun hx => h1 (List.mem_cons_of_mem c hx))
        (fun hx => h2 (h.1 ▸ List.mem_cons_of_mem c2 hx)) h.2
      exact ⟨by rw [h.1, this.1], this.2⟩

/-- Splitting a `<prefix>_<digits>` character list at the final underscore is
unambiguous when the digit parts contain no underscore. -/
theorem split_last_underscore (k1 k2 d1 d2 : List Char)
    (h1 : '_' ∉ d1) (h2 : '_' ∉ d2)
    (h : k1 ++ '_' :: d1 = k2 ++ '_' :: d2) : k1 = k2 ∧ d1 = d2 := by
  have hrev := congrArg List.reverse h
  simp only [List.reverse_append, List.reverse_cons] at hrev
  rw [List.append_assoc, List.append_assoc] at hrev
  simp only [List.singleton_append] at hrev
  have := append_cons_inj_of_not_mem d1.reverse d2.reverse k1.reverse k2.reverse
    (by simpa using h1) (by simpa using h2) hrev
  constructor
  · have := congrArg List.reverse this.2
    simpa using this
  · have := congrArg List.reverse this.1
    simpa using this

theorem string_data_inj (s t : String) (h : s.data = t.data) : s = t := String.ext h

/-- Registry operation id strings with the same direction are equal only
when the channel id and the counter agree. -/
theorem opId_inj (dir k1 k2 : String) (n1 n2 : Nat)
    (h : dir ++ k1 ++ "_" ++ Nat.repr n1 = dir ++ k2 ++ "_" ++ Nat.repr n2) :
    k1 = k2 ∧ n1 = n2 := by
  have hd := congrArg String.data h
  simp only [String.data_append] at hd
  rw [List.append_assoc, List.append_assoc, List.append_assoc, List.append_assoc] at hd
  have hcancel := List.append_cancel_left hd
  simp only [List.singleton_append] at hcancel
  have := split_last_underscore k1.data k2.data (Nat.repr n1).data (Nat.repr n2).data
    (underscore_not_mem_repr n1) (underscore_not_mem_repr n2) hcancel
  exact ⟨string_data_inj k1 k2 this.1,
    natRepr_injective n1 n2 (string_data_inj (Nat.repr n1) (Nat.repr n2) this.2)⟩

/-- A `send_…` operation id never coincides with a `receive_…` one. -/
theorem send_ne_receive (k1 k2 : String) (n1 n2 : Nat) :
    "send_" ++ k1 ++ "_" ++ Nat.repr n1 ≠ "receive_" ++ k2 ++ "_" ++ Nat.repr n2 := by
  intro h
  have hd := congrArg String.data h
  simp only [String.data_append] at hd
  simp only [List.append_assoc, List.cons_append, List.nil_append, List.cons.injEq] at hd
  exact absurd hd.1 (by decide)

/-- A generator `schema_<i>` key never coincides with a `headers_<j>` key. -/
theorem schemaKey_ne_headersKey (i j : Nat) :
    "schema_" ++ Nat.repr i ≠ "headers_" ++ Nat.repr j := by
  intro h
  have hd := congrArg String.data h
  simp only [String.data_append] at hd
  simp only [List.cons_append, List.nil_append, List.cons.injEq] at hd
  exact absurd hd.1 (by decide)

/-- Generator schema keys with the same textual stem are injective in the
counter. -/
theorem stemKey_inj (stem : String) (i j : Nat)
    (h : stem ++ Nat.repr i = stem ++ Nat.repr j) : i = j := by
  have hd := congrArg String.data h
  simp only [String.data_append] at hd
  exact natRepr_injective i j (string_data_inj _ _ (List.append_cancel_left hd))

/-! ### Infrastructure: lemmas about `mapSet` / `mapGet` -/

theorem find_map_overwrite {A : Type} (k : String) (v : A) :
    ∀ m : List (String × A),
      (m.map (fun p => if p.1 == k then (k, v) else p)).find? (fun p => p.1 == k) =
        if m.any (fun p => p.1 == k) then some (k, v) else none := by
  intro m
  induction m with
  | nil => rfl
  | cons p rest ih =>
    by_cases hp : p.1 = k
    · rw [List.map_cons, if_pos (beq_iff_eq.mpr hp)]
      rw [List.find?_cons_of_pos _ (by simp)]
      rw [if_pos (by simp [List.any_cons, hp])]
    · rw [List.map_cons, if_neg (by simp [hp])]
      rw [List.find?_cons_of_neg _ (by simp [hp]), ih]
      have hany : ((p :: rest).any fun q => q.1 == k) = (rest.any fun q => q.1 == k) := by
        simp [List.any_cons, hp]
      rw [hany]

theorem mapGet_mapSet_self {A : Type} (m : List (String × A)) (k : String) (v : A) :
    mapGet (mapSet m k v) k = some v := by
  unfold mapSet mapGet
  by_cases h : m.any (fun p => p.1 == k)
  · rw [if_pos h, find_map_overwrite, if_pos h]
    rfl
  · rw [if_neg h, List.find?_append]
    have hnone : m.find? (fun p => p.1 == k) = none := by
      rw [List.find?_eq_none]
      intro p hp hb
      exact h (List.any_eq_true.mpr ⟨p, hp, hb⟩)
    have hone : List.find? (fun p => p.1 == k) [(k, v)] = some (k, v) :=
      List.find?_cons_of_pos _ (by simp)
    rw [hnone, hone]
    rfl

theorem mapGet_mapSet_ne {A : Type} (m : List (String × A)) (k k' : String) (v : A)
    (hne : k' ≠ k) : mapGet (mapSet m k v) k' = mapGet m k' := by
  unfold mapSet mapGet
  by_cases h : m.any (fun p => p.1 == k)
  · rw [if_pos h]
    congr 1
    clear h
    induction m with
    | nil => rfl
    | cons p rest ih =>
      rw [List.map_cons]
      by_cases hp : p.1 = k
      · rw [if_pos (beq_iff_eq.mpr hp)]
        rw [List.find?_cons_of_neg _ (by simp [Ne.symm hne]),
          List.find?_cons_of_neg _ (by simp [hp, Ne.symm hne])]
        exact ih
      · rw [if_neg (by simp [hp])]
        by_cases hpk : p.1 = k'
        · rw [List.find?_cons_of_pos _ (by simp [hpk]),
            List.find?_cons_of_pos _ (by simp [hpk])]
        · rw [List.find?_cons_of_neg _ (by simp [hpk]),
            List.find?_cons_of_neg _ (by simp [hpk])]
          exact ih
  · rw [if_neg h, List.find?_append]
    have hone : List.find? (fun p => p.1 == k') [(k, v)] = none := by
      rw [List.find?_eq_none]
      intro p hp
      have : p = (k, v) := by simpa using hp
      simp [this, Ne.symm hne]
    rw [hone]
    cases hf : m.find? (fun p => p.1 == k') <;> simp [hf]

theorem mapSet_keys {A : Type} (m : List (String × A)) (k : String) (v : A) :
    (mapSet m k v).map Prod.fst = m.map Prod.fst ∨
      ((mapSet m k v).map Prod.fst = m.map Prod.fst ++ [k] ∧ k ∉ m.map Prod.fst) := by
  unfold mapSet
  by_cases h : m.any (fun p => p.1 == k)
  · left
    rw [if_pos h, List.map_map]
    apply List.map_congr_left
    intro p _
    by_cases hp : p.1 = k
    · rw [Function.comp_apply, if_pos (beq_iff_eq.mpr hp)]
      exact hp.symm
    · rw [Function.comp_apply, if_neg (by simp [hp])]
  · right
    rw [if_neg h]
    refine ⟨by simp, ?_⟩
    intro hk
    rw [List.mem_map] at hk
    obtain ⟨p, hp, hpk⟩ := hk
    exact absurd (List.any_eq_true.mpr ⟨p, hp, by simp [hpk]⟩) h

theorem mapSet_keys_nodup {A : Type} (m : List (String × A)) (k : String) (v : A)
    (h : (m.map Prod.fst).Nodup) : ((mapSet m k v).map Prod.fst).Nodup := by
  rcases mapSet_keys m k v with heq | ⟨heq, hnot⟩
  · rwa [heq]
  · rw [heq, List.nodup_append]
    refine ⟨h, List.nodup_singleton k, ?_⟩
    intro x hx hxk
    simp only [List.mem_singleton] at hxk
    exact hnot (hxk ▸ hx)

theorem mem_mapSet {A : Type} (m : List (String × A)) (k : String) (v : A) :
    ∀ p ∈ mapSet m k v, p = (k, v) ∨ p ∈ m := by
  intro p hp
  unfold mapSet at hp
  by_cases h : m.any (fun q => q.1 == k)
  · rw [if_pos h, List.mem_map] at hp
    obtain ⟨q, hq, hqe⟩ := hp
    by_cases hqk : q.1 = k
    · left
      rw [← hqe, if_pos (beq_iff_eq.mpr hqk)]
    · right
      rw [← hqe, if_neg (by simp [hqk])]
      exact hq
  · rw [if_neg h, List.mem_append] at hp
    rcases hp with hp | hp
    · right; exact hp
    · left ; simpa using hp

theorem mapGet_eq_some_mem {A : Type} (m : List (String × A)) (k : String) (v : A)
    (h : mapGet m k = some v) : (k, v) ∈ m := by
  unfold mapGet at h
  cases hf : m.find? (fun p => p.1 == k) with
  | none => rw [hf] at h; exact absurd h (by simp)
  | some q =>
    rw [hf] at h
    have hq := List.find?_some hf
    have hmem := List.mem_of_find?_eq_some hf
    have hqe : q = (k, v) := by
      cases q
      simp only [beq_iff_eq] at hq
      simp at h
      simp_all
    exact hqe ▸ hmem

theorem mapGet_eq_none_iff {A : Type} (m : List (String × A)) (k : String) :
    mapGet m k = none ↔ ∀ p ∈ m, p.1 ≠ k := by
  unfold mapGet
  rw [Option.map_eq_none', List.find?_eq_none]
  constructor
  · intro h p hp
    simpa using h p hp
  · intro h p hp
    simpa using h p hp

/-! ### Translator lemmas -/

theorem translate_type_or_oneOf :
    ∀ t : ZodType,
      (generateSchemaFromZod t).type.isSome = true ∨
        (generateSchemaFromZod t).oneOf.isSome = true
  | .zstring _ => Or.inl rfl
  | .znumber _ => Or.inl rfl
  | .zboolean _ => Or.inl rfl
  | .zarray _ _ => Or.inl rfl
  | .zobject _ _ => Or.inl rfl
  | .zenum _ _ => Or.inl rfl
  | .zliteral _ _ => Or.inl rfl
  | .zunion _ _ => Or.inr rfl
  | .zoptional t _ => translate_type_or_oneOf t
  | .znullable t _ => by
    have ih := translate_type_or_oneOf t
    show (generateSchemaFromZod (.znullable t _)).type.isSome = true ∨
      (generateSchemaFromZod (.znullable t _)).oneOf.isSome = true
    rw [generateSchemaFromZod]
    cases hg : generateSchemaFromZod t with
    | mk ty p r i e o a n df ds =>
      rw [hg] at ih
      simpa [SchemaObject.type, SchemaObject.oneOf] using ih
  | .zdefault t _ _ => by
    have ih := translate_type_or_oneOf t
    show (generateSchemaFromZod (.zdefault t _ _)).type.isSome = true ∨
      (generateSchemaFromZod (.zdefault t _ _)).oneOf.isSome = true
    rw [generateSchemaFromZod]
    cases hg : generateSchemaFromZod t with
    | mk ty p r i e o a n df ds =>
      rw [hg] at ih
      simpa [SchemaObject.type, SchemaObject.oneOf] using ih
  | .zrecord _ _ => Or.inl rfl
  | .zother _ => Or.inl rfl

theorem generateSchemaProps_length :
    ∀ s : ZodShape, (generateSchemaProps s).length = s.toList.length
  | .nil => rfl
  | .cons k v rest => by
    rw [generateSchemaProps, ZodShape.toList, List.length_cons, List.length_cons,
      generateSchemaProps_length rest]

theorem generateSchemaProps_keys :
    ∀ s : ZodShape, (generateSchemaProps s).map Prod.fst = s.toList.map Prod.fst
  | .nil => rfl
  | .cons k v rest => by
    rw [generateSchemaProps, ZodShape.toList, List.map_cons, List.map_cons,
      generateSchemaProps_keys rest]

theorem requiredKeys_eq_filter :
    ∀ s : ZodShape,
      s.requiredKeys = (s.toList.filter (fun p => !p.2.isOptional)).map Prod.fst
  | .nil => rfl
  | .cons k v rest => by
    rw [ZodShape.requiredKeys, ZodShape.toList]
    by_cases hv : v.isOptional
    · simp [hv, List.filter_cons, requiredKeys_eq_filter rest]
    · simp [hv, List.filter_cons, requiredKeys_eq_filter rest]

theorem length_filter_split :
    ∀ s : ZodShape,
      (s.toList.filter (fun p => !p.2.isOptional)).length
        + (s.toList.filter (fun p => p.2.isOptional)).length = s.toList.length
  | .nil => rfl
  | .cons k v rest => by
    have ih := length_filter_split rest
    rw [ZodShape.toList]
    by_cases hv : v.isOptional <;> simp [List.filter_cons, hv] <;> omega

/-! ### YAML emitter lemma: dropping undefined fields -/

theorem convertToYAMLFields_filterUndef :
    ∀ (fs : JSFields) (indent : Nat),
      convertToYAMLFields fs indent = convertToYAMLFields (filterUndefFields fs) indent
  | .nil, _ => rfl
  | .cons k .undef rest, indent => convertToYAMLFields_filterUndef rest indent
  | .cons k (.null) rest, indent => by
    show _ ++ convertToYAMLFields rest indent
      = _ ++ convertToYAMLFields (filterUndefFields rest) indent
    rw [convertToYAMLFields_filterUndef rest indent]
  | .cons k (.bool b) rest, indent => by
    show _ ++ convertToYAMLFields rest indent
      = _ ++ convertToYAMLFields (filterUndefFields rest) indent
    rw [convertToYAMLFields_filterUndef rest indent]
  | .cons k (.num n) rest, indent => by
    show _ ++ convertToYAMLFields rest indent
      = _ ++ convertToYAMLFields (filterUndefFields rest) indent
    rw [convertToYAMLFields_filterUndef rest indent]
  | .cons k (.str s) rest, indent => by
    show _ ++ convertToYAMLFields rest indent
      = _ ++ convertToYAMLFields (filterUndefFields rest) indent
    rw [convertToYAMLFields_filterUndef rest indent]
  | .cons k (.arr items) rest, indent => by
    show _ ++ convertToYAMLFields rest indent
      = _ ++ convertToYAMLFields (filterUndefFields rest) indent
    rw [convertToYAMLFields_filterUndef rest indent]
  | .cons k (.obj fields) rest, indent => by
    show _ ++ convertToYAMLFields rest indent
      = _ ++ convertToYAMLFields (filterUndefFields rest) indent
    rw [convertToYAMLFields_filterUndef rest indent]

/-! ### Claim theorems -/

/-- C5: for every structurally valid schema node translation terminates
without raising (the embedding is a total function); unknown node kinds
yield exactly the bare object fallback; and every translation result
carries a `type` key or a `oneOf` key. -/
theorem claim_C5_translate_total :
    (∀ b : Bool, generateSchemaFromZod (.zother b)
        = SchemaObject.mk (some "object") none none none none none none none none none) ∧
    (∀ t : ZodType, (generateSchemaFromZod t).type.isSome = true ∨
        (generateSchemaFromZod t).oneOf.isSome = true) :=
  ⟨fun _ => rfl, translate_type_or_oneOf⟩

/-- C6: translating an object schema with N non-optional and M optional
fields yields `properties` with exactly N + M entries whose keys are the
declared field names in order, and a `required` list of exactly the N
non-optional names in declaration order, omitted when N is zero. -/
theorem claim_C6_object_translation (shape : ZodShape) (d : Option String)
    (hnodup : (shape.toList.map Prod.fst).Nodup) :
    ∃ props, (generateSchemaFromZod (.zobject shape d)).properties = some props ∧
      props.length = (shape.toList.filter fun p => !p.2.isOptional).length
        + (shape.toList.filter fun p => p.2.isOptional).length ∧
      props.map Prod.fst = shape.toList.map Prod.fst ∧
      (generateSchemaFromZod (.zobject shape d)).required =
        (if (shape.toList.filter fun p => !p.2.isOptional).length = 0 then none
         else some ((shape.toList.filter fun p => !p.2.isOptional).map Prod.fst)) := by
  refine ⟨generateSchemaProps shape, rfl, ?_, generateSchemaProps_keys shape, ?_⟩
  · rw [generateSchemaProps_length]
    exact (length_filter_split shape).symm
  · have hreq : (generateSchemaFromZod (.zobject shape d)).required =
        (if (ZodShape.requiredKeys shape).length > 0 then some shape.requiredKeys
         else none) := rfl
    rw [hreq, requiredKeys_eq_filter, List.length_map]
    by_cases h0 : (shape.toList.filter fun p => !p.2.isOptional).length = 0
    · rw [if_neg (by omega), if_pos h0]
    · rw [if_pos (by omega), if_neg h0]

/-- C6 witness: the object translation claim instantiated at the concrete
shape `{a: string, b?: string}`. -/
theorem claim_C6_witness :
    (demoShape.toList.map Prod.fst).Nodup ∧
    (∃ props, (generateSchemaFromZod (.zobject demoShape none)).properties = some props ∧
      props.length = (demoShape.toList.filter fun p => !p.2.isOptional).length
        + (demoShape.toList.filter fun p => p.2.isOptional).length ∧
      props.map Prod.fst = demoShape.toList.map Prod.fst ∧
      (generateSchemaFromZod (.zobject demoShape none)).required =
        (if (demoShape.toList.filter fun p => !p.2.isOptional).length = 0 then none
         else some ((demoShape.toList.filter fun p => !p.2.isOptional).map Prod.fst))) :=
  ⟨by decide, claim_C6_object_translation demoShape none (by decide)⟩

/-- C7: translating a nullable wrapper yields the inner translation with
`nullable: true` overlaid and every other key preserved unchanged. -/
theorem claim_C7_nullable_overlay (t : ZodType) (d : Option String) :
    (generateSchemaFromZod (.znullable t d)).nullable = some true ∧
    (generateSchemaFromZod (.znullable t d)).type = (generateSchemaFromZod t).type ∧
    (generateSchemaFromZod (.znullable t d)).properties = (generateSchemaFromZod t).properties ∧
    (generateSchemaFromZod (.znullable t d)).required = (generateSchemaFromZod t).required ∧
    (generateSchemaFromZod (.znullable t d)).items = (generateSchemaFromZod t).items ∧
    (generateSchemaFromZod (.znullable t d)).enumVals = (generateSchemaFromZod t).enumVals ∧
    (generateSchemaFromZod (.znullable t d)).oneOf = (generateSchemaFromZod t).oneOf ∧
    (generateSchemaFromZod (.znullable t d)).additionalProperties
      = (generateSchemaFromZod t).additionalProperties ∧
    (generateSchemaFromZod (.znullable t d)).schemaDefault
      = (generateSchemaFromZod t).schemaDefault ∧
    (generateSchemaFromZod (.znullable t d)).description
      = (generateSchemaFromZod t).description := by
  cases hg : generateSchemaFromZod t with
  | mk ty p r i e o a n df ds =>
    have hout : generateSchemaFromZod (.znullable t d) = .mk ty p r i e o a (some true) df ds := by
      rw [generateSchemaFromZod, hg]
    rw [hout]
    exact ⟨rfl, rfl, rfl, rfl, rfl, rfl, rfl, rfl, rfl, rfl⟩

/-- C9 counterexample: the emitter renders a string that is an array item
unquoted, so the claim that every string value is rendered quoted is false
at this input (the output contains no quote character at all). -/
theorem claim_C9_counterexample :
    convertToYAML (JSValue.obj (JSFields.cons "required"
        (JSValue.arr (JSList.cons (JSValue.str "roomId") JSList.nil)) JSFields.nil)) 0
      = "required:\n  - roomId\n" ∧
    '"' ∉ (convertToYAML (JSValue.obj (JSFields.cons "required"
        (JSValue.arr (JSList.cons (JSValue.str "roomId") JSList.nil)) JSFields.nil)) 0).data :=
  ⟨rfl, by decide⟩

/-- C9 (amended): the emitter renders arrays as dashed items (object items
on an indented block line, scalar items coerced after the dash — string
items unquoted), nested objects as indented key blocks, string values of
object fields quoted, and omits every object field whose value is
undefined. -/
theorem claim_C9_yaml_emitter :
    (∀ (fs : JSFields) (n : Nat),
       convertToYAMLFields fs n = convertToYAMLFields (filterUndefFields fs) n) ∧
    (∀ (k : String) (rest : JSFields) (n : Nat),
       convertToYAMLFields (.cons k .undef rest) n = convertToYAMLFields rest n) ∧
    (∀ (k s : String) (rest : JSFields) (n : Nat),
       convertToYAMLFields (.cons k (.str s) rest) n
         = yamlSpaces n ++ k ++ ": \"" ++ s ++ "\"\n" ++ convertToYAMLFields rest n) ∧
    (∀ (k : String) (gs : JSFields) (rest : JSFields) (n : Nat),
       convertToYAMLFields (.cons k (.obj gs) rest) n
         = yamlSpaces n ++ k ++ ":\n" ++ convertToYAMLFields gs (n + 1)
           ++ convertToYAMLFields rest n) ∧
    (∀ (k : String) (items : JSList) (rest : JSFields) (n : Nat),
       convertToYAMLFields (.cons k (.arr items) rest) n
         = yamlSpaces n ++ k ++ ":\n" ++ convertToYAMLList items (n + 1)
           ++ convertToYAMLFields rest n) ∧
    (∀ (item : JSValue) (rest : JSList) (n : Nat),
       convertToYAMLList (.cons item rest) n
         = (if isObjectNonNull item then
             yamlSpaces n ++ "-\n" ++ convertToYAML item (n + 1)
           else yamlSpaces n ++ "- " ++ jsCoerce item ++ "\n")
           ++ convertToYAMLList rest n) ∧
    (∀ (s : String) (rest : JSList) (n : Nat),
       convertToYAMLList (.cons (.str s) rest) n
         = yamlSpaces n ++ "- " ++ s ++ "\n" ++ convertToYAMLList rest n) := by
  refine ⟨convertToYAMLFields_filterUndef, fun k rest n => rfl, fun k s rest n => ?_,
    fun k gs rest n => ?_, fun k items rest n => ?_, fun item rest n => rfl,
    fun s rest n => rfl⟩
  · rw [convertToYAMLFields]
  · rw [convertToYAMLFields]
  · rw [convertToYAMLFields]

/-- C10: generating a document leaves the registry unchanged (the generator
only reads the channel view), so a second generate call with the same
options produces the same document. -/
theorem claim_C10_generate_frame (r : AsyncAPIRegistry) (o : GeneratorOptions) :
    (generateAsyncAPIDocument r o).2 = r ∧
    (generateAsyncAPIDocument ((generateAsyncAPIDocument r o).2) o).1
      = (generateAsyncAPIDocument r o).1 :=
  ⟨rfl, rfl⟩

/-- C2: `registerChannel` assigns each direction present the id
`<direction>_<channelId>_<sequence>` drawn from the registry's single
counter (`send` first, then `receive`), and advances the counter once per
direction; in particular two one-direction channels registered in sequence
on a fresh registry receive ids ending in `_0` and `_1`. -/
theorem claim_C2_registerChannel_operationIds (r : AsyncAPIRegistry) (id : String)
    (config : ChannelConfig) (handler : Option Unit) :
    (((r.registerChannel id config handler).getChannel id).map
        (fun ch => ch.operations.send.map (fun m => m.operationId))
      = some (config.send.map
          (fun _ => "send_" ++ id ++ "_" ++ Nat.repr r.operationCounter))) ∧
    (((r.registerChannel id config handler).getChannel id).map
        (fun ch => ch.operations.receive.map (fun m => m.operationId))
      = some (config.receive.map
          (fun _ => "receive_" ++ id ++ "_"
            ++ Nat.repr (r.operationCounter + (if config.send.isSome then 1 else 0))))) ∧
    ((r.registerChannel id config handler).operationCounter
      = r.operationCounter + (if config.send.isSome then 1 else 0)
        + (if config.receive.isSome then 1 else 0)) ∧
    (((demoRegistry.getChannel "chat").bind (fun ch => ch.operations.send)).map
        OperationMetadata.operationId = some ("send_chat" ++ "_0")) ∧
    (((demoRegistry.getChannel "news").bind (fun ch => ch.operations.receive)).map
        OperationMetadata.operationId = some ("receive_news" ++ "_1")) := by
  refine ⟨?_, ?_, ?_, rfl, rfl⟩
  · cases hs : config.send with
    | none =>
      cases hr : config.receive with
      | none =>
        simp [AsyncAPIRegistry.registerChannel, AsyncAPIRegistry.getChannel, hs, hr,
          mapGet_mapSet_self]
      | some mr =>
        simp [AsyncAPIRegistry.registerChannel, AsyncAPIRegistry.getChannel, hs, hr,
          mapGet_mapSet_self]
    | some ms =>
      cases hr : config.receive with
      | none =>
        simp [AsyncAPIRegistry.registerChannel, AsyncAPIRegistry.getChannel, hs, hr,
          mapGet_mapSet_self]
      | some mr =>
        simp [AsyncAPIRegistry.registerChannel, AsyncAPIRegistry.getChannel, hs, hr,
          mapGet_mapSet_self]
  · cases hs : config.send with
    | none =>
      cases hr : config.receive with
      | none =>
        simp [AsyncAPIRegistry.registerChannel, AsyncAPIRegistry.getChannel, hs, hr,
          mapGet_mapSet_self]
      | some mr =>
        simp [AsyncAPIRegistry.registerChannel, AsyncAPIRegistry.getChannel, hs, hr,
          mapGet_mapSet_self]
    | some ms =>
      cases hr : config.receive with
      | none =>
        simp [AsyncAPIRegistry.registerChannel, AsyncAPIRegistry.getChannel, hs, hr,
          mapGet_mapSet_self]
      | some mr =>
        simp [AsyncAPIRegistry.registerChannel, AsyncAPIRegistry.getChannel, hs, hr,
          mapGet_mapSet_self]
  · cases hs : config.send with
    | none =>
      cases hr : config.receive with
      | none => simp [AsyncAPIRegistry.registerChannel, hs, hr]
      | some mr => simp [AsyncAPIRegistry.registerChannel, hs, hr]
    | some ms =>
      cases hr : config.receive with
      | none => simp [AsyncAPIRegistry.registerChannel, hs, hr]
      | some mr => simp [AsyncAPIRegistry.registerChannel, hs, hr]

/-- C8: `clear` removes all entries and resets the counter to zero, and a
registration performed right after `clear` on a config with at least one
direction produces an operation id ending in `_0`. -/
theorem claim_C8_clear (r : AsyncAPIRegistry) (id : String) (config : ChannelConfig)
    (handler : Option Unit) (hdir : config.send.isSome ∨ config.receive.isSome) :
    (r.clear.channels = [] ∧ r.clear.operationCounter = 0) ∧
    (∃ ch, (r.clear.registerChannel id config handler).getChannel id = some ch ∧
      ∃ m, (ch.operations.send = some m ∨ ch.operations.receive = some m) ∧
        ∃ s, m.operationId = s ++ "_0") := by
  refine ⟨⟨rfl, rfl⟩, ?_⟩
  cases hs : config.send with
  | some ms =>
    cases hr : config.receive with
    | some mr =>
      refine ⟨⟨config, handler,
        ⟨some ⟨"send_" ++ id ++ "_" ++ Nat.repr 0, ms.summary, ms.description, config.tags⟩,
         some ⟨"receive_" ++ id ++ "_" ++ Nat.repr 1, mr.summary, mr.description,
           config.tags⟩⟩⟩, ?_, ?_⟩
      · simp [AsyncAPIRegistry.clear, AsyncAPIRegistry.registerChannel,
          AsyncAPIRegistry.getChannel, hs, hr, mapGet_mapSet_self]
      · refine ⟨_, Or.inl rfl, "send_" ++ id, ?_⟩
        rw [String.append_assoc]
        rfl
    | none =>
      refine ⟨⟨config, handler,
        ⟨some ⟨"send_" ++ id ++ "_" ++ Nat.repr 0, ms.summary, ms.description, config.tags⟩,
         none⟩⟩, ?_, ?_⟩
      · simp [AsyncAPIRegistry.clear, AsyncAPIRegistry.registerChannel,
          AsyncAPIRegistry.getChannel, hs, hr, mapGet_mapSet_self]
      · refine ⟨_, Or.inl rfl, "send_" ++ id, ?_⟩
        rw [String.append_assoc]
        rfl
  | none =>
    cases hr : config.receive with
    | some mr =>
      refine ⟨⟨config, handler,
        ⟨none, some ⟨"receive_" ++ id ++ "_" ++ Nat.repr 0, mr.summary, mr.description,
          config.tags⟩⟩⟩, ?_, ?_⟩
      · simp [AsyncAPIRegistry.clear, AsyncAPIRegistry.registerChannel,
          AsyncAPIRegistry.getChannel, hs, hr, mapGet_mapSet_self]
      · refine ⟨_, Or.inr rfl, "receive_" ++ id, ?_⟩
        rw [String.append_assoc]
        rfl
    | none =>
      rw [hs, hr] at hdir
      simp at hdir

/-- C8 witness: the clear-then-register claim instantiated at a concrete
registry and a send-only configuration. -/
theorem claim_C8_witness :
    (demoSendConfig.send.isSome ∨ demoSendConfig.receive.isSome) ∧
    ((demoRegistry.clear.channels = [] ∧ demoRegistry.clear.operationCounter = 0) ∧
    (∃ ch, (demoRegistry.clear.registerChannel "chat" demoSendConfig none).getChannel "chat"
        = some ch ∧
      ∃ m, (ch.operations.send = some m ∨ ch.operations.receive = some m) ∧
        ∃ s, m.operationId = s ++ "_0")) :=
  ⟨Or.inl (by decide),
   claim_C8_clear demoRegistry "chat" demoSendConfig none (Or.inl (by decide))⟩

/-! ### Registry invariant: operation id uniqueness (C3) -/

theorem registerChannel_WF (r : AsyncAPIRegistry) (id : String) (config : ChannelConfig)
    (handler : Option Unit) (h : RegistryWF r) :
    RegistryWF (r.registerChannel id config handler) := by
  obtain ⟨hkeys, hentries⟩ := h
  constructor
  · exact mapSet_keys_nodup _ _ _ hkeys
  · intro p hp
    rcases mem_mapSet _ _ _ p hp with heq | hmem
    · subst heq
      constructor
      · cases hs : config.send with
        | none => simp [AsyncAPIRegistry.registerChannel, hs, opIdOk]
        | some ms =>
          simp only [AsyncAPIRegistry.registerChannel, hs, opIdOk]
          exact ⟨r.operationCounter, rfl⟩
      · cases hr : config.receive with
        | none => simp [AsyncAPIRegistry.registerChannel, hr, opIdOk]
        | some mr =>
          cases hs : config.send with
          | none =>
            simp only [AsyncAPIRegistry.registerChannel, hs, hr, opIdOk]
            exact ⟨r.operationCounter, rfl⟩
          | some ms =>
            simp only [AsyncAPIRegistry.registerChannel, hs, hr, opIdOk]
            exact ⟨r.operationCounter + 1, rfl⟩
    · exact hentries p hmem

theorem foldl_mapSet_WF (l : List (String × RegisteredChannel)) :
    ∀ acc : List (String × RegisteredChannel),
      (acc.map Prod.fst).Nodup → (∀ p ∈ acc, entryOk p.1 p.2) →
      (∀ p ∈ l, entryOk p.1 p.2) →
      ((l.foldl (fun a q => mapSet a q.1 q.2) acc).map Prod.fst).Nodup ∧
        ∀ p ∈ l.foldl (fun a q => mapSet a q.1 q.2) acc, entryOk p.1 p.2 := by
  induction l with
  | nil =>
    intro acc h1 h2 _
    exact ⟨h1, h2⟩
  | cons q rest ih =>
    intro acc h1 h2 hl
    rw [List.foldl_cons]
    apply ih
    · exact mapSet_keys_nodup _ _ _ h1
    · intro p hp
      rcases mem_mapSet _ _ _ p hp with heq | hmem
      · subst heq
        exact hl q (List.mem_cons_self q rest)
      · exact h2 p hmem
    · intro p hp
      exact hl p (List.mem_cons_of_mem q hp)

theorem merge_WF (r other : AsyncAPIRegistry) (h1 : RegistryWF r) (h2 : RegistryWF other) :
    RegistryWF (r.merge other) := by
  obtain ⟨hk1, he1⟩ := h1
  obtain ⟨_, he2⟩ := h2
  have h := foldl_mapSet_WF other.channels r.channels hk1 he1 he2
  exact ⟨h.1, h.2⟩

theorem reachable_WF : ∀ r : AsyncAPIRegistry, Reachable r → RegistryWF r := by
  intro r h
  induction h with
  | empty =>
    refine ⟨List.nodup_nil, ?_⟩
    intro p hp
    cases hp
  | register r id config handler _ ih => exact registerChannel_WF r id config handler ih
  | merge r other _ _ ihr iho => exact merge_WF r other ihr iho

theorem mem_opList (o : Option OperationMetadata) (dir k : String) (hok : opIdOk dir k o)
    (x : String)
    (hx : x ∈ (match o with | some m => [m.operationId] | none => ([] : List String))) :
    ∃ n, x = dir ++ k ++ "_" ++ Nat.repr n := by
  cases o with
  | none => cases hx
  | some m =>
    simp only [List.mem_singleton] at hx
    obtain ⟨n, hn⟩ := hok
    exact ⟨n, hx ▸ hn⟩

theorem entryOperationIds_nodup (k : String) (ch : RegisteredChannel) (hok : entryOk k ch) :
    (entryOperationIds ch).Nodup := by
  obtain ⟨hsend, hrecv⟩ := hok
  unfold entryOperationIds
  cases hs : ch.operations.send with
  | none =>
    cases hr : ch.operations.receive with
    | none => simp
    | some m => simp
  | some m =>
    cases hr : ch.operations.receive with
    | none => simp
    | some m2 =>
      rw [hs, opIdOk] at hsend
      rw [hr, opIdOk] at hrecv
      obtain ⟨n1, h1⟩ := hsend
      obtain ⟨n2, h2⟩ := hrecv
      simp only [List.cons_append, List.nil_append]
      refine List.nodup_cons.mpr ⟨?_, List.nodup_singleton _⟩
      simp only [List.mem_singleton]
      intro heq
      rw [h1, h2] at heq
      exact send_ne_receive k k n1 n2 heq

theorem entryOperationIds_disjoint (k1 k2 : String) (ch1 ch2 : RegisteredChannel)
    (hok1 : entryOk k1 ch1) (hok2 : entryOk k2 ch2) (hne : k1 ≠ k2) :
    ∀ x ∈ entryOperationIds ch1, x ∉ entryOperationIds ch2 := by
  intro x hx hx2
  obtain ⟨hs1, hr1⟩ := hok1
  obtain ⟨hs2, hr2⟩ := hok2
  unfold entryOperationIds at hx hx2
  rw [List.mem_append] at hx hx2
  rcases hx with hx | hx <;> rcases hx2 with hx2 | hx2
  · obtain ⟨n1, e1⟩ := mem_opList _ _ _ hs1 x hx
    obtain ⟨n2, e2⟩ := mem_opList _ _ _ hs2 x hx2
    rw [e1] at e2
    exact hne (opId_inj "send_" k1 k2 n1 n2 e2).1
  · obtain ⟨n1, e1⟩ := mem_opList _ _ _ hs1 x hx
    obtain ⟨n2, e2⟩ := mem_opList _ _ _ hr2 x hx2
    rw [e1] at e2
    exact send_ne_receive k1 k2 n1 n2 e2
  · obtain ⟨n1, e1⟩ := mem_opList _ _ _ hr1 x hx
    obtain ⟨n2, e2⟩ := mem_opList _ _ _ hs2 x hx2
    rw [e1] at e2
    exact send_ne_receive k2 k1 n2 n1 e2.symm
  · obtain ⟨n1, e1⟩ := mem_opList _ _ _ hr1 x hx
    obtain ⟨n2, e2⟩ := mem_opList _ _ _ hr2 x hx2
    rw [e1] at e2
    exact hne (opId_inj "receive_" k1 k2 n1 n2 e2).1

theorem opIds_nodup_of :
    ∀ l : List (String × RegisteredChannel),
      ((l.map Prod.fst).Nodup) → (∀ p ∈ l, entryOk p.1 p.2) →
      (l.flatMap (fun p => entryOperationIds p.2)).Nodup := by
  intro l
  induction l with
  | nil =>
    intro _ _
    simp
  | cons q rest ih =>
    intro hkeys hok
    rw [List.flatMap_cons, List.nodup_append]
    have hkeys2 : (q.1 :: rest.map Prod.fst).Nodup := by simpa using hkeys
    refine ⟨entryOperationIds_nodup q.1 q.2 (hok q (List.mem_cons_self q rest)), ?_, ?_⟩
    · exact ih (List.nodup_cons.mp hkeys2).2
        (fun p hp => hok p (List.mem_cons_of_mem q hp))
    · intro x hx hx'
      rw [List.mem_flatMap] at hx'
      obtain ⟨p, hp, hxp⟩ := hx'
      have hne : q.1 ≠ p.1 := by
        intro he
        exact (List.nodup_cons.mp hkeys2).1 (he ▸ List.mem_map_of_mem Prod.fst hp)
      exact entryOperationIds_disjoint q.1 p.1 q.2 p.2 (hok q (List.mem_cons_self q rest))
        (hok p (List.mem_cons_of_mem q hp)) hne x hx hxp

/-- C3: across any sequence of registry operations without a clear, the
operation ids stored in a registry are pairwise distinct. -/
theorem claim_C3_operationIds_nodup (r : AsyncAPIRegistry) (h : Reachable r) :
    r.allOperationIds.Nodup := by
  have hwf := reachable_WF r h
  exact opIds_nodup_of r.channels hwf.1 hwf.2

/-- C3 witness: the uniqueness invariant instantiated at a concrete registry
built by two registrations on a fresh registry. -/
theorem claim_C3_witness :
    Reachable demoRegistry ∧ demoRegistry.allOperationIds.Nodup := by
  have hr : Reachable demoRegistry :=
    Reachable.register _ _ _ _ (Reachable.register _ _ _ _ Reachable.empty)
  exact ⟨hr, claim_C3_operationIds_nodup demoRegistry hr⟩

/-! ### Merge lookup characterization (C4) -/

theorem mapGet_foldl_mapSet_not_mem {A : Type} :
    ∀ (l acc : List (String × A)) (k : String),
      (∀ p ∈ l, p.1 ≠ k) →
      mapGet (l.foldl (fun a q => mapSet a q.1 q.2) acc) k = mapGet acc k := by
  intro l
  induction l with
  | nil =>
    intro acc k _
    rfl
  | cons q rest ih =>
    intro acc k h
    rw [List.foldl_cons, ih _ k (fun p hp => h p (List.mem_cons_of_mem q hp))]
    exact mapGet_mapSet_ne acc q.1 k q.2
      (fun he => h q (List.mem_cons_self q rest) he.symm)

theorem mapGet_foldl_mapSet_mem {A : Type} :
    ∀ (l acc : List (String × A)) (k : String) (v : A),
      (l.map Prod.fst).Nodup → (k, v) ∈ l →
      mapGet (l.foldl (fun a q => mapSet a q.1 q.2) acc) k = some v := by
  intro l
  induction l with
  | nil =>
    intro acc k v _ h
    cases h
  | cons q rest ih =>
    intro acc k v hnd hmem
    rw [List.foldl_cons]
    rcases List.mem_cons.mp hmem with heq | hmem2
    · subst heq
      rw [List.map_cons] at hnd
      have hnd2 := List.nodup_cons.mp hnd
      have hknotin : ∀ p ∈ rest, p.1 ≠ k := by
        intro p hp he
        have hmm : p.1 ∈ rest.map Prod.fst := List.mem_map_of_mem Prod.fst hp
        rw [he] at hmm
        exact hnd2.1 hmm
      rw [mapGet_foldl_mapSet_not_mem rest _ k hknotin]
      exact mapGet_mapSet_self acc k v
    · rw [List.map_cons] at hnd
      exact ih _ k v (List.nodup_cons.mp hnd).2 hmem2

/-- C4: after `a.merge b`, lookups prefer the entry copied from `b` (the
second registry wins on shared keys), keys only in `a` keep `a`'s entry, and
the receiving counter is untouched; `b` itself, being passed by value to the
pure embedding of `merge`, is never modified. -/
theorem claim_C4_merge (a b : AsyncAPIRegistry)
    (hb : (b.channels.map Prod.fst).Nodup) :
    (∀ k ch, mapGet b.channels k = some ch → (a.merge b).getChannel k = some ch) ∧
    (∀ k, mapGet b.channels k = none → (a.merge b).getChannel k = a.getChannel k) ∧
    (a.merge b).operationCounter = a.operationCounter := by
  refine ⟨?_, ?_, rfl⟩
  · intro k ch hget
    exact mapGet_foldl_mapSet_mem b.channels a.channels k ch hb
      (mapGet_eq_some_mem b.channels k ch hget)
  · intro k hnone
    exact mapGet_foldl_mapSet_not_mem b.channels a.channels k
      ((mapGet_eq_none_iff b.channels k).mp hnone)

/-- C4 witness: the merge characterization instantiated at two concrete
one-channel registries with distinct channel ids. -/
theorem claim_C4_witness :
    ((demoRegistryB.channels.map Prod.fst).Nodup) ∧
    ((∀ k ch, mapGet demoRegistryB.channels k = some ch →
        (demoRegistryA.merge demoRegistryB).getChannel k = some ch) ∧
     (∀ k, mapGet demoRegistryB.channels k = none →
        (demoRegistryA.merge demoRegistryB).getChannel k = demoRegistryA.getChannel k) ∧
     (demoRegistryA.merge demoRegistryB).operationCounter
        = demoRegistryA.operationCounter) :=
  ⟨by decide, claim_C4_merge demoRegistryA demoRegistryB (by decide)⟩

/-! ### Generator schema key assignment (C1) -/

/-- C1 counterexample: for a single message carrying both a payload and a
headers schema, the generator stores the payload under `schema_0` and the
headers under `headers_0` — not under a `schema_<n>` key — and no
`schema_1` entry exists, because the call-local counter advances once per
message direction rather than once per schema translated. -/
theorem claim_C1_counterexample :
    ((generateAsyncAPIDocument demoPayloadHeadersRegistry demoOptions).1.components.schemas
      = some [("schema_0", SchemaObject.ofType "string" none),
              ("headers_0", SchemaObject.ofType "number" none)]) ∧
    (mapGet (((generateAsyncAPIDocument demoPayloadHeadersRegistry
        demoOptions).1.components.schemas).getD []) "schema_1" = none) :=
  ⟨rfl, rfl⟩

theorem createMessageObject_schemas_frame (mc : MessageConfig)
    (schemas : List (String × SchemaObject)) (c : Nat) (key : String)
    (h1 : key ≠ "schema_" ++ Nat.repr c) (h2 : key ≠ "headers_" ++ Nat.repr c) :
    mapGet (createMessageObject mc schemas c).2 key = mapGet schemas key := by
  cases hp : mc.payload with
  | none =>
    cases hh : mc.headers with
    | none => simp only [createMessageObject, hp, hh]
    | some h =>
      simp only [createMessageObject, hp, hh]
      rw [mapGet_mapSet_ne _ _ _ _ h2]
  | some p =>
    cases hh : mc.headers with
    | none =>
      simp only [createMessageObject, hp, hh]
      rw [mapGet_mapSet_ne _ _ _ _ h1]
    | some h =>
      simp only [createMessageObject, hp, hh]
      rw [mapGet_mapSet_ne _ _ _ _ h2, mapGet_mapSet_ne _ _ _ _ h1]

theorem createMessageObject_payload_get (mc : MessageConfig)
    (schemas : List (String × SchemaObject)) (c : Nat) (p : ZodSchema)
    (hp : mc.payload = some p) :
    mapGet (createMessageObject mc schemas c).2 ("schema_" ++ Nat.repr c)
      = some (zodToAsyncAPISchema p) := by
  cases hh : mc.headers with
  | none =>
    simp only [createMessageObject, hp, hh]
    exact mapGet_mapSet_self _ _ _
  | some h =>
    simp only [createMessageObject, hp, hh]
    rw [mapGet_mapSet_ne _ _ _ _ (schemaKey_ne_headersKey c c)]
    exact mapGet_mapSet_self _ _ _

theorem createMessageObject_headers_get (mc : MessageConfig)
    (schemas : List (String × SchemaObject)) (c : Nat) (h : ZodSchema)
    (hh : mc.headers = some h) :
    mapGet (createMessageObject mc schemas c).2 ("headers_" ++ Nat.repr c)
      = some (zodToAsyncAPISchema h) := by
  cases hp : mc.payload with
  | none =>
    simp only [createMessageObject, hp, hh]
    exact mapGet_mapSet_self _ _ _
  | some p =>
    simp only [createMessageObject, hp, hh]
    exact mapGet_mapSet_self _ _ _

theorem processChannel_schemaCounter (st : GenState) (cid : String)
    (ch : RegisteredChannel) :
    (processChannel st cid ch).schemaCounter
      = st.schemaCounter + (channelDirectionMessages ch).length := by
  cases hs : ch.config.send with
  | none =>
    cases hr : ch.config.receive with
    | none => simp [processChannel, processDirection, channelDirectionMessages, hs, hr]
    | some mr =>
      cases hor : ch.operations.receive with
      | none => simp [processChannel, processDirection, channelDirectionMessages, hs, hr, hor]
      | some opr => simp [processChannel, processDirection, channelDirectionMessages, hs, hr, hor]
  | some ms =>
    cases hos : ch.operations.send with
    | none =>
      cases hr : ch.config.receive with
      | none => simp [processChannel, processDirection, channelDirectionMessages, hs, hos, hr]
      | some mr =>
        cases hor : ch.operations.receive with
        | none =>
          simp [processChannel, processDirection, channelDirectionMessages, hs, hos, hr, hor]
        | some opr =>
          simp [processChannel, processDirection, channelDirectionMessages, hs, hos, hr, hor]
    | some ops =>
      cases hr : ch.config.receive with
      | none => simp [processChannel, processDirection, channelDirectionMessages, hs, hos, hr]
      | some mr =>
        cases hor : ch.operations.receive with
        | none =>
          simp [processChannel, processDirection, channelDirectionMessages, hs, hos, hr, hor]
        | some opr =>
          simp [processChannel, processDirection, channelDirectionMessages, hs, hos, hr, hor]

theorem schemaKey_ne_schemaKey (i j : Nat) (h : i ≠ j) :
    "schema_" ++ Nat.repr i ≠ "schema_" ++ Nat.repr j :=
  fun he => h (stemKey_inj "schema_" i j he)

theorem headersKey_ne_headersKey (i j : Nat) (h : i ≠ j) :
    "headers_" ++ Nat.repr i ≠ "headers_" ++ Nat.repr j :=
  fun he => h (stemKey_inj "headers_" i j he)

theorem processChannel_schemas_frame (st : GenState) (cid : String)
    (ch : RegisteredChannel) (key : String)
    (hfree : ∀ j, st.schemaCounter ≤ j →
      key ≠ "schema_" ++ Nat.repr j ∧ key ≠ "headers_" ++ Nat.repr j) :
    mapGet (processChannel st cid ch).schemas key = mapGet st.schemas key := by
  cases hs : ch.config.send with
  | none =>
    cases hr : ch.config.receive with
    | none => simp [processChannel, processDirection, hs, hr]
    | some mr =>
      cases hor : ch.operations.receive with
      | none => simp [processChannel, processDirection, hs, hr, hor]
      | some opr =>
        simp only [processChannel, processDirection, hs, hr, hor]
        exact createMessageObject_schemas_frame mr st.schemas st.schemaCounter key
          (hfree st.schemaCounter le_rfl).1 (hfree st.schemaCounter le_rfl).2
  | some ms =>
    cases hos : ch.operations.send with
    | none =>
      cases hr : ch.config.receive with
      | none => simp [processChannel, processDirection, hs, hos, hr]
      | some mr =>
        cases hor : ch.operations.receive with
        | none => simp [processChannel, processDirection, hs, hos, hr, hor]
        | some opr =>
          simp only [processChannel, processDirection, hs, hos, hr, hor]
          exact createMessageObject_schemas_frame mr st.schemas st.schemaCounter key
            (hfree st.schemaCounter le_rfl).1 (hfree st.schemaCounter le_rfl).2
    | some ops =>
      cases hr : ch.config.receive with
      | none =>
        cases hor : ch.operations.receive with
        | none =>
          simp only [processChannel, processDirection, hs, hos, hr]
          exact createMessageObject_schemas_frame ms st.schemas st.schemaCounter key
            (hfree st.schemaCounter le_rfl).1 (hfree st.schemaCounter le_rfl).2
        | some opr =>
          simp only [processChannel, processDirection, hs, hos, hr]
          exact createMessageObject_schemas_frame ms st.schemas st.schemaCounter key
            (hfree st.schemaCounter le_rfl).1 (hfree st.schemaCounter le_rfl).2
      | some mr =>
        cases hor : ch.operations.receive with
        | none =>
          simp only [processChannel, processDirection, hs, hos, hr, hor]
          exact createMessageObject_schemas_frame ms st.schemas st.schemaCounter key
            (hfree st.schemaCounter le_rfl).1 (hfree st.schemaCounter le_rfl).2
        | some opr =>
          simp only [processChannel, processDirection, hs, hos, hr, hor]
          rw [createMessageObject_schemas_frame mr _ (st.schemaCounter + 1) key
            (hfree (st.schemaCounter + 1) (by omega)).1
            (hfree (st.schemaCounter + 1) (by omega)).2]
          exact createMessageObject_schemas_frame ms st.schemas st.schemaCounter key
            (hfree st.schemaCounter le_rfl).1 (hfree st.schemaCounter le_rfl).2

theorem processChannel_schema_get (st : GenState) (cid : String) (ch : RegisteredChannel)
    (i : Nat) (mc : MessageConfig)
    (hget : (channelDirectionMessages ch).get? i = some mc) :
    (∀ p, mc.payload = some p →
      mapGet (processChannel st cid ch).schemas
          ("schema_" ++ Nat.repr (st.schemaCounter + i)) = some (zodToAsyncAPISchema p)) ∧
    (∀ h, mc.headers = some h →
      mapGet (processChannel st cid ch).schemas
          ("headers_" ++ Nat.repr (st.schemaCounter + i)) = some (zodToAsyncAPISchema h)) := by
  cases hs : ch.config.send with
  | none =>
    cases hr : ch.config.receive with
    | none => simp [channelDirectionMessages, hs, hr] at hget
    | some mr =>
      cases hor : ch.operations.receive with
      | none => simp [channelDirectionMessages, hs, hr, hor] at hget
      | some opr =>
        simp only [channelDirectionMessages, hs, hr, hor, List.nil_append] at hget
        cases i with
        | zero =>
          simp only [List.get?] at hget
          cases hget
          constructor
          · intro p hp
            simp only [processChannel, processDirection, hs, hr, hor, Nat.add_zero]
            exact createMessageObject_payload_get mc st.schemas st.schemaCounter p hp
          · intro h hh
            simp only [processChannel, processDirection, hs, hr, hor, Nat.add_zero]
            exact createMessageObject_headers_get mc st.schemas st.schemaCounter h hh
        | succ n => simp [List.get?] at hget
  | some ms =>
    cases hos : ch.operations.send with
    | none =>
      cases hr : ch.config.receive with
      | none => simp [channelDirectionMessages, hs, hos, hr] at hget
      | some mr =>
        cases hor : ch.operations.receive with
        | none => simp [channelDirectionMessages, hs, hos, hr, hor] at hget
        | some opr =>
          simp only [channelDirectionMessages, hs, hos, hr, hor, List.nil_append] at hget
          cases i with
          | zero =>
            simp only [List.get?] at hget
            cases hget
            constructor
            · intro p hp
              simp only [processChannel, processDirection, hs, hos, hr, hor, Nat.add_zero]
              exact createMessageObject_payload_get mc st.schemas st.schemaCounter p hp
            · intro h hh
              simp only [processChannel, processDirection, hs, hos, hr, hor, Nat.add_zero]
              exact createMessageObject_headers_get mc st.schemas st.schemaCounter h hh
          | succ n => simp [List.get?] at hget
    | some ops =>
      cases hr : ch.config.receive with
      | none =>
        simp only [channelDirectionMessages, hs, hos, hr, List.append_nil] at hget
        cases i with
        | zero =>
          simp only [List.get?] at hget
          cases hget
          constructor
          · intro p hp
            simp only [processChannel, processDirection, hs, hos, hr, Nat.add_zero]
            exact createMessageObject_payload_get mc st.schemas st.schemaCounter p hp
          · intro h hh
            simp only [processChannel, processDirection, hs, hos, hr, Nat.add_zero]
            exact createMessageObject_headers_get mc st.schemas st.schemaCounter h hh
        | succ n => simp [List.get?] at hget
      | some mr =>
        cases hor : ch.operations.receive with
        | none =>
          simp only [channelDirectionMessages, hs, hos, hr, hor, List.append_nil] at hget
          cases i with
          | zero =>
            simp only [List.get?] at hget
            cases hget
            constructor
            · intro p hp
              simp only [processChannel, processDirection, hs, hos, hr, hor, Nat.add_zero]
              exact createMessageObject_payload_get mc st.schemas st.schemaCounter p hp
            · intro h hh
              simp only [processChannel, processDirection, hs, hos, hr, hor, Nat.add_zero]
              exact createMessageObject_headers_get mc st.schemas st.schemaCounter h hh
          | succ n => simp [List.get?] at hget
        | some opr =>
          simp only [channelDirectionMessages, hs, hos, hr, hor, List.cons_append,
            List.nil_append] at hget
          cases i with
          | zero =>
            simp only [List.get?] at hget
            cases hget
            constructor
            · intro p hp
              simp only [processChannel, processDirection, hs, hos, hr, hor, Nat.add_zero]
              rw [createMessageObject_schemas_frame mr _ (st.schemaCounter + 1) _
                (schemaKey_ne_schemaKey st.schemaCounter (st.schemaCounter + 1) (by omega))
                (schemaKey_ne_headersKey st.schemaCounter (st.schemaCounter + 1))]
              exact createMessageObject_payload_get mc st.schemas st.schemaCounter p hp
            · intro h hh
              simp only [processChannel, processDirection, hs, hos, hr, hor, Nat.add_zero]
              rw [createMessageObject_schemas_frame mr _ (st.schemaCounter + 1) _
                (Ne.symm (schemaKey_ne_headersKey (st.schemaCounter + 1) st.schemaCounter))
                (headersKey_ne_headersKey st.schemaCounter (st.schemaCounter + 1) (by omega))]
              exact createMessageObject_headers_get mc st.schemas st.schemaCounter h hh
          | succ n =>
            cases n with
            | zero =>
              simp only [List.get?] at hget
              cases hget
              constructor
              · intro p hp
                simp only [processChannel, processDirection, hs, hos, hr, hor]
                exact createMessageObject_payload_get mc _ (st.schemaCounter + 1) p hp
              · intro h hh
                simp only [processChannel, processDirection, hs, hos, hr, hor]
                exact createMessageObject_headers_get mc _ (st.schemaCounter + 1) h hh
            | succ n2 => simp [List.get?] at hget

theorem genLoop_schemas_frame :
    ∀ (chans : List (String × RegisteredChannel)) (st : GenState) (key : String),
      (∀ j, st.schemaCounter ≤ j →
        key ≠ "schema_" ++ Nat.repr j ∧ key ≠ "headers_" ++ Nat.repr j) →
      mapGet (genLoop chans st).schemas key = mapGet st.schemas key := by
  intro chans
  induction chans with
  | nil =>
    intro st key _
    rfl
  | cons q rest ih =>
    intro st key hfree
    have hcount := processChannel_schemaCounter st q.1 q.2
    have hfree2 : ∀ j, (processChannel st q.1 q.2).schemaCounter ≤ j →
        key ≠ "schema_" ++ Nat.repr j ∧ key ≠ "headers_" ++ Nat.repr j := by
      intro j hj
      rw [hcount] at hj
      exact hfree j (by omega)
    have hg : genLoop (q :: rest) st = genLoop rest (processChannel st q.1 q.2) := rfl
    rw [hg, ih (processChannel st q.1 q.2) key hfree2]
    exact processChannel_schemas_frame st q.1 q.2 key hfree

theorem genLoop_schema_get :
    ∀ (chans : List (String × RegisteredChannel)) (st : GenState) (i : Nat)
      (mc : MessageConfig),
      (directionMessages chans).get? i = some mc →
      (∀ p, mc.payload = some p →
        mapGet (genLoop chans st).schemas ("schema_" ++ Nat.repr (st.schemaCounter + i))
          = some (zodToAsyncAPISchema p)) ∧
      (∀ h, mc.headers = some h →
        mapGet (genLoop chans st).schemas ("headers_" ++ Nat.repr (st.schemaCounter + i))
          = some (zodToAsyncAPISchema h)) := by
  intro chans
  induction chans with
  | nil =>
    intro st i mc hget
    simp [directionMessages] at hget
  | cons q rest ih =>
    intro st i mc hget
    have hdm : directionMessages (q :: rest)
        = channelDirectionMessages q.2 ++ directionMessages rest := rfl
    rw [hdm] at hget
    have hg : genLoop (q :: rest) st = genLoop rest (processChannel st q.1 q.2) := rfl
    have hcount := processChannel_schemaCounter st q.1 q.2
    by_cases hi : i < (channelDirectionMessages q.2).length
    · rw [List.get?_append hi] at hget
      have hhead := processChannel_schema_get st q.1 q.2 i mc hget
      constructor
      · intro p hp
        have hfree1 : ∀ j, (processChannel st q.1 q.2).schemaCounter ≤ j →
            ("schema_" ++ Nat.repr (st.schemaCounter + i)) ≠ "schema_" ++ Nat.repr j ∧
            ("schema_" ++ Nat.repr (st.schemaCounter + i)) ≠ "headers_" ++ Nat.repr j := by
          intro j hj
          rw [hcount] at hj
          exact ⟨schemaKey_ne_schemaKey _ _ (by omega), schemaKey_ne_headersKey _ _⟩
        rw [hg, genLoop_schemas_frame rest (processChannel st q.1 q.2) _ hfree1]
        exact hhead.1 p hp
      · intro h hh
        have hfree1 : ∀ j, (processChannel st q.1 q.2).schemaCounter ≤ j →
            ("headers_" ++ Nat.repr (st.schemaCounter + i)) ≠ "schema_" ++ Nat.repr j ∧
            ("headers_" ++ Nat.repr (st.schemaCounter + i)) ≠ "headers_" ++ Nat.repr j := by
          intro j hj
          rw [hcount] at hj
          exact ⟨Ne.symm (schemaKey_ne_headersKey j (st.schemaCounter + i)),
            headersKey_ne_headersKey _ _ (by omega)⟩
        rw [hg, genLoop_schemas_frame rest (processChannel st q.1 q.2) _ hfree1]
        exact hhead.2 h hh
    · push_neg at hi
      rw [List.get?_append_right hi] at hget
      have hrec := ih (processChannel st q.1 q.2)
        (i - (channelDirectionMessages q.2).length) mc hget
      have harith : (processChannel st q.1 q.2).schemaCounter
          + (i - (channelDirectionMessages q.2).length) = st.schemaCounter + i := by
        rw [hcount]
        omega
      rw [harith] at hrec
      rw [hg]
      exact hrec

/-- C1 (amended): during generation the payload schema of the i-th message
direction (counting both `send` and `receive`, in registry iteration order)
is stored in `components.schemas` under `schema_<i>`, and that message's
headers schema under `headers_<i>`: the call-local counter starts at 0 and
is incremented once per message direction processed, with a message's
payload and headers sharing the same index. -/
theorem claim_C1_schema_keys (r : AsyncAPIRegistry) (o : GeneratorOptions)
    (i : Nat) (mc : MessageConfig)
    (hget : (directionMessages r.getAllChannels).get? i = some mc) :
    (∀ p, mc.payload = some p →
      mapGet (((generateAsyncAPIDocument r o).1.components.schemas).getD [])
          ("schema_" ++ Nat.repr i) = some (zodToAsyncAPISchema p)) ∧
    (∀ h, mc.headers = some h →
      mapGet (((generateAsyncAPIDocument r o).1.components.schemas).getD [])
          ("headers_" ++ Nat.repr i) = some (zodToAsyncAPISchema h)) := by
  have hloop := genLoop_schema_get r.getAllChannels
    ⟨[], [],
     (match o.components with | some c => c.schemas.getD [] | none => []),
     (match o.components with | some c => c.messages.getD [] | none => []), 0, 0⟩
    i mc hget
  simp only [Nat.zero_add] at hloop
  exact hloop

/-- C1 witness: the amended key-assignment claim instantiated at the
payload-and-headers registry. -/
theorem claim_C1_witness :
    ((directionMessages demoPayloadHeadersRegistry.getAllChannels).get? 0
        = some demoPayloadHeadersMessage) ∧
    ((∀ p, demoPayloadHeadersMessage.payload = some p →
      mapGet (((generateAsyncAPIDocument demoPayloadHeadersRegistry
          demoOptions).1.components.schemas).getD [])
          ("schema_" ++ Nat.repr 0) = some (zodToAsyncAPISchema p)) ∧
    (∀ h, demoPayloadHeadersMessage.headers = some h →
      mapGet (((generateAsyncAPIDocument demoPayloadHeadersRegistry
          demoOptions).1.components.schemas).getD [])
          ("headers_" ++ Nat.repr 0) = some (zodToAsyncAPISchema h))) :=
  ⟨rfl, claim_C1_schema_keys demoPayloadHeadersRegistry demoOptions 0
    demoPayloadHeadersMessage rfl⟩
